import Mathlib

/-!
Verification development for the Neuro per-frame effects pipeline.

The definitions below are a shallow embedding of the Python sources:
- `src/SMM/apply_emotion_overlay.py` (hex color parsing, timeline segment
  selection, overlay construction and blending),
- `src/SMM/zoom_merge.py` (two-phase zoom scale curve, eyelid mask),
- `src/SMM/process_video.py` (the five effect stages and `process_frame`).

Machine floats are idealized as exact rationals or reals.  External library
primitives that the repository calls but does not define (the OpenCV Gaussian
blur and Canny edge detector, and the numpy random sampler) are passed in as
explicit function parameters; everything else is translated directly from the
Python source.  Conversion of a float array to `uint8` after a `np.clip` to
[0, 255] is modelled by `u8val` (clamp, then truncate), matching numpy cast
semantics for non-negative values.
-/

namespace Neuro

/-! ### Hex color parsing (apply_emotion_overlay.py, lines 26-40) -/

/-- Character class of the regex `[0-9A-Fa-f]`. -/
def isHexDigit (c : Char) : Bool :=
  (decide ('0' ≤ c) && decide (c ≤ '9')) ||
  (decide ('a' ≤ c) && decide (c ≤ 'f')) ||
  (decide ('A' ≤ c) && decide (c ≤ 'F'))

/-- Numeric value of one hex digit, as used by Python `int(value, 16)`. -/
def hexVal (c : Char) : ℕ :=
  if decide ('0' ≤ c) && decide (c ≤ '9') then c.toNat - '0'.toNat
  else if decide ('a' ≤ c) && decide (c ≤ 'f') then c.toNat - 'a'.toNat + 10
  else if decide ('A' ≤ c) && decide (c ≤ 'F') then c.toNat - 'A'.toNat + 10
  else 0

/-- Python `int(value[i:i+2], 16)`: two hex digits to a byte. -/
def byteVal (c1 c2 : Char) : ℕ := 16 * hexVal c1 + hexVal c2

/-- One attempt of the regex `#?([0-9A-Fa-f]{8})` at the head of `l`.
The greedy optional `#` is consumed when present; if the eight digits after
the `#` fail, the engine backtracks and retries without consuming the `#`
(that retry can only succeed if `#` itself were a hex digit, which it is
not, but the branch is kept to mirror the regex semantics). -/
def hexMatchAt (l : List Char) : Option (List Char) :=
  if l.head? = some '#' then
    if (l.tail.take 8).length = 8 ∧ (l.tail.take 8).all isHexDigit then
      some (l.tail.take 8)
    else if (l.take 8).length = 8 ∧ (l.take 8).all isHexDigit then
      some (l.take 8)
    else none
  else
    if (l.take 8).length = 8 ∧ (l.take 8).all isHexDigit then
      some (l.take 8)
    else none

/-- Python `re.search`: try the pattern at every position, leftmost first. -/
def hexSearch : List Char → Option (List Char)
  | [] => none
  | c :: rest =>
    match hexMatchAt (c :: rest) with
    | some g => some g
    | none => hexSearch rest

/-- The function `hex_to_rgba` from apply_emotion_overlay.py: search for
`#?([0-9A-Fa-f]{8})` anywhere in the string, decode the captured eight hex
digits as RGBA bytes, and raise `ValueError` (modelled as `Except.error`
carrying the offending input) when there is no match. -/
def hex_to_rgba (s : String) : Except String (ℕ × ℕ × ℕ × ℕ) :=
  match hexSearch s.data with
  | none => Except.error s
  | some v =>
    Except.ok (byteVal (v.getD 0 '0') (v.getD 1 '0'),
               byteVal (v.getD 2 '0') (v.getD 3 '0'),
               byteVal (v.getD 4 '0') (v.getD 5 '0'),
               byteVal (v.getD 6 '0') (v.getD 7 '0'))

/-! ### Timeline segment selection (apply_emotion_overlay.py, lines 16-23 and 110-116) -/

/-- The `ColorOverlayConfig` dataclass. -/
structure ColorOverlayConfig where
  emotion_id : ℤ
  hex_color : String
  start_time : ℚ
  duration : ℚ
  overlay_type : String
  intensity : ℚ
  deriving DecidableEq

/-- The membership test of the selection loop:
`config.start_time <= timestamp < config.start_time + config.duration`. -/
def inSegment (c : ColorOverlayConfig) (t : ℚ) : Bool :=
  decide (c.start_time ≤ t ∧ t < c.start_time + c.duration)

/-- The function `select_color` from apply_emotion_overlay.py: linear scan returning the
first segment whose half-open interval contains the timestamp, falling back
to the last segment of a non-empty timeline, else `none`. -/
def select_color (configs : List ColorOverlayConfig) (t : ℚ) :
    Option ColorOverlayConfig :=
  match configs.find? (fun c => inSegment c t) with
  | some c => some c
  | none => configs.getLast?

/-- Segment 0 of the two-segment demo timeline of the spec. -/
def seg0 : ColorOverlayConfig := ⟨0, "#7d5bffaa", 0, 1, "tint", 35 / 100⟩

/-- Segment 1 of the two-segment demo timeline of the spec. -/
def seg1 : ColorOverlayConfig := ⟨1, "#4fd1c5ff", 1, 1, "tint", 35 / 100⟩

/-- The demo timeline `[{start:0,dur:1},{start:1,dur:1}]`. -/
def demoTimeline : List ColorOverlayConfig := [seg0, seg1]

/-! ### Zoom scale curve (zoom_merge.py, lines 17-28) -/

/-- The scale computed by `zoom_effect.transform_frame` for time `t` within a
clip of length `duration`: two smoothstep-eased phases, ramping from 1 up to
`zoom_in` over the first half and back down to `zoom_out` over the second. -/
def zoomScale (zoom_in zoom_out duration t : ℚ) : ℚ :=
  if t < duration / 2 then
    let p := t / (duration / 2)
    let p := p * p * (3 - 2 * p)
    1 + (zoom_in - 1) * p
  else
    let p := (t - duration / 2) / (duration / 2)
    let p := p * p * (3 - 2 * p)
    zoom_in - (zoom_in - zoom_out) * p

/-! ### Frames and the uint8 cast -/

/-- A video frame: an RGB raster.  `px` is a total function; only indices
`y < h`, `x < w` are meaningful.  The three color channels of the numpy
arrays are indexed by `Fin 3`. -/
structure Frame where
  h : ℕ
  w : ℕ
  px : ℕ → ℕ → Fin 3 → ℝ

/-- Numpy `np.clip(x, 0, 255).astype(np.uint8)`: clamp to [0, 255] and truncate
toward zero (truncation equals floor on the clamped, non-negative value). -/
noncomputable def u8val (x : ℝ) : ℝ := ⌊max 0 (min x 255)⌋

/-- Python `int(...)` on a float: truncation toward zero. -/
noncomputable def pyInt (x : ℝ) : ℤ := if 0 ≤ x then ⌊x⌋ else -⌊-x⌋

/-! ### The Neuro palette (process_video.py, lines 39-45) -/

/-- Palette entry deep_night of NEURO_PALETTE, #030b18. -/
noncomputable def deep_night : Fin 3 → ℝ := ![3, 11, 24]

/-- Palette entry violet of NEURO_PALETTE, #7d5bff. -/
noncomputable def violet : Fin 3 → ℝ := ![125, 91, 255]

/-- Palette entry azure of NEURO_PALETTE, #4fd1c5. -/
noncomputable def azure : Fin 3 → ℝ := ![79, 209, 197]

/-! ### The five effect stages (process_video.py, lines 52-156) -/

/-- Numpy `np.linspace(0, 1, w)` sampled at column `j`. -/
noncomputable def linspace01 (w j : ℕ) : ℝ :=
  if w ≤ 1 then 0 else (j : ℝ) / ((w : ℝ) - 1)

/-- The pulsing blend weight of `color_shift`: `0.5 + 0.3 * np.sin(t * 0.5)`. -/
noncomputable def pulse (t : ℝ) : ℝ := 0.5 + 0.3 * Real.sin (t * 0.5)

/-- Stage 1, `color_shift`: blend each channel toward a horizontal
deep-night-to-violet gradient with weight `pulse * 0.4`, then clamp. -/
noncomputable def color_shift (F : Frame) (t : ℝ) : Frame :=
  ⟨F.h, F.w, fun _y x c =>
    u8val (F.px _y x c * (1 - pulse t * 0.4) +
      (deep_night c + (violet c - deep_night c) * linspace01 F.w x) *
        (pulse t * 0.4))⟩

/-- Stage 2, `edge_enhancement`: blend the frame with the colorized Canny
edge map at weight `strength`.  The Canny detector is an OpenCV primitive,
taken as the parameter `canny` (its grayscale output is replicated across
the three channels by `cv2.COLOR_GRAY2RGB`, hence one value per pixel). -/
noncomputable def edge_enhancement (canny : Frame → ℕ → ℕ → ℝ) (F : Frame)
    (strength : ℝ) : Frame :=
  ⟨F.h, F.w, fun y x c =>
    u8val (F.px y x c * (1 - strength) + canny F y x * strength)⟩

/-- Stage 3, `glow_filter`: additively blend the Gaussian-blurred frame
(sigma `intensity * 10`) over the original at weight `intensity`.  The blur
is an OpenCV primitive, taken as the parameter `gauss` (frame and sigma to
blurred pixel values). -/
noncomputable def glow_filter (gauss : Frame → ℝ → ℕ → ℕ → Fin 3 → ℝ)
    (F : Frame) (intensity : ℝ) : Frame :=
  ⟨F.h, F.w, fun y x c =>
    u8val (F.px y x c * 1.0 + gauss F (intensity * 10) y x c * intensity)⟩

/-- The eased breath value of `breath_rhythm`:
`np.sin((phase + np.pi/2) / 2) * 0.6 + 0.5` with `phase = 2 * np.pi * t / period`
(the first assignment `0.5 + 0.3 * np.sin(phase)` in the source is dead code,
immediately overwritten by this one). -/
noncomputable def breathEase (t period : ℝ) : ℝ :=
  Real.sin ((2 * Real.pi * t / period + Real.pi / 2) / 2) * 0.6 + 0.5

/-- Stage 4, `breath_rhythm`: when `int(breath * 2) > 0`, blend the frame
with its Gaussian blur (sigma `int(breath * 2)`) at weight `breath * 0.3`;
always scale brightness by `1 + breath * 0.1`, then clamp. -/
noncomputable def breath_rhythm (gauss : Frame → ℝ → ℕ → ℕ → Fin 3 → ℝ)
    (F : Frame) (t period : ℝ) : Frame :=
  let b := breathEase t period
  let blurAmount := pyInt (b * 2)
  ⟨F.h, F.w, fun y x c =>
    let mixed :=
      if 0 < blurAmount then
        F.px y x c * (1 - b * 0.3) +
          gauss F ((blurAmount : ℤ) : ℝ) y x c * (b * 0.3)
      else F.px y x c
    u8val (mixed * (1 + b * 0.1))⟩

/-- Number of noise points: `num_points = int(h * w * density)`. -/
noncomputable def num_points (h w : ℕ) (density : ℝ) : ℕ :=
  (pyInt ((h : ℝ) * (w : ℝ) * density)).toNat

/-- Target pixel of one noise point `(x, y)`: offsets
`int(5 * np.sin(t * 2 + y * 0.01))` and `int(5 * np.cos(t * 2 + x * 0.01))`
added to the point and wrapped with Python `%` (always non-negative).
Returns `(px, py)`. -/
noncomputable def noiseTarget (h w : ℕ) (t : ℝ) (xy : ℕ × ℕ) : ℕ × ℕ :=
  let offset_x := pyInt (5 * Real.sin (t * 2 + (xy.2 : ℝ) * 0.01))
  let offset_y := pyInt (5 * Real.cos (t * 2 + (xy.1 : ℝ) * 0.01))
  ((((xy.1 : ℤ) + offset_x).emod (w : ℤ)).toNat,
   (((xy.2 : ℤ) + offset_y).emod (h : ℤ)).toNat)

/-- Loop body of `photonic_noise`: brighten the target pixel by
`azure * 0.3`, capped at 255 by `np.minimum`, guarded by the bounds check
`0 <= px < w and 0 <= py < h`. -/
noncomputable def applyPoint (h w : ℕ) (t : ℝ) (xy : ℕ × ℕ)
    (acc : ℕ → ℕ → Fin 3 → ℝ) : ℕ → ℕ → Fin 3 → ℝ :=
  let tgt := noiseTarget h w t xy
  if tgt.1 < w ∧ tgt.2 < h then
    fun y x c =>
      if y = tgt.2 ∧ x = tgt.1 then min (acc y x c + azure c * 0.3) 255
      else acc y x c
  else acc

/-- Stage 5, `photonic_noise`: scatter `num_points` random points; the
unseeded `np.random.uniform` sampler is taken as the parameter `rng`
(the pair sampled on iteration `i` is `rng i = (x, y)`). -/
noncomputable def photonic_noise (rng : ℕ → ℕ × ℕ) (F : Frame) (t : ℝ)
    (density : ℝ) : Frame :=
  let n := num_points F.h F.w density
  let data := (List.range n).foldl
    (fun acc i => applyPoint F.h F.w t (rng i) acc) F.px
  ⟨F.h, F.w, fun y x c => u8val (data y x c)⟩

/-- The function `process_frame`: the fixed-order composition of the five stages with the
parameters used in the source (edge strength 0.15, glow intensity 0.25,
breath period 6).  The source calls `photonic_noise` with the literal
density 0.008; the density is kept as a parameter here so that the
noise-disabled configuration of the spec scenario can be expressed. -/
noncomputable def process_frame (canny : Frame → ℕ → ℕ → ℝ)
    (gauss : Frame → ℝ → ℕ → ℕ → Fin 3 → ℝ) (rng : ℕ → ℕ × ℕ)
    (density : ℝ) (F : Frame) (t : ℝ) : Frame :=
  photonic_noise rng
    (breath_rhythm gauss
      (glow_filter gauss
        (edge_enhancement canny (color_shift F t) 0.15) 0.25) t 6) t density

/-! ### Eyelid mask (zoom_merge.py, lines 55-90) -/

/-- The function `create_eye_mask`: per-pixel visibility of the eyelid-shaped blink mask.
Both arms of the `if closing` branch in the source compute the same
`gap = h * 0.6 * (1 - progress)`; the branch is preserved verbatim. -/
noncomputable def create_eye_mask (h w : ℕ) (progress : ℝ) (closing : Bool)
    (y x : ℕ) : ℝ :=
  let center_y : ℕ := h / 2
  let center_x : ℕ := w / 2
  let rx : ℝ := (w : ℝ) * 0.5
  let gap : ℝ :=
    if closing then ((h : ℝ) * 0.6) * (1 - progress)
    else ((h : ℝ) * 0.6) * (1 - progress)
  let dist_y : ℝ := |(y : ℝ) - (center_y : ℝ)|
  let dist_x : ℝ := |(x : ℝ) - (center_x : ℝ)|
  let ellipse_factor : ℝ := Real.sqrt (1 - max 0 (min ((dist_x / rx) ^ 2) 1))
  let effective_gap : ℝ := gap * (0.3 + 0.7 * ellipse_factor)
  let visibility : ℝ :=
    max 0 (min (1 - max 0 (dist_y - effective_gap) / (effective_gap * 0.5 + 1)) 1)
  visibility ^ 2 * (3 - 2 * visibility)

/-! ### Overlay construction and blending (apply_emotion_overlay.py, lines 119-144) -/

/-- An RGBA color, channels 0-255. -/
structure Rgba where
  r : ℕ
  g : ℕ
  b : ℕ
  a : ℕ

/-- Python `rgba[:3]` indexed by channel. -/
def rgbChannel (col : Rgba) : Fin 3 → ℕ := ![col.r, col.g, col.b]

/-- The radial falloff mask of `create_overlay`:
`np.clip(1 - distances / max_dist, 0, 1) ** 1.5` with the frame center and
`max_dist = math.hypot(w / 2, h / 2)`. -/
noncomputable def radialMask (h w : ℕ) (y x : ℕ) : ℝ :=
  let cx : ℝ := (w : ℝ) / 2
  let cy : ℝ := (h : ℝ) / 2
  let maxDist : ℝ := Real.sqrt (cx ^ 2 + cy ^ 2)
  let dist : ℝ := Real.sqrt (((x : ℝ) - cx) ^ 2 + ((y : ℝ) - cy) ^ 2)
  (max 0 (min (1 - dist / maxDist) 1)) ^ (1.5 : ℝ)

/-- One pixel of the overlay built by `create_overlay`: the normalized color,
scaled by the radial mask when `overlay_type == "radial"`, else flat. -/
noncomputable def create_overlay_px (h w : ℕ) (rgba : Rgba)
    (overlay_type : String) (y x : ℕ) (c : Fin 3) : ℝ :=
  let color : ℝ := (rgbChannel rgba c : ℝ) / 255
  if overlay_type = "radial" then color * radialMask h w y x else color

/-- Python `alpha_scale = (rgba[3] / 255.0) * intensity`. -/
noncomputable def alpha_scale (rgba : Rgba) (intensity : ℝ) : ℝ :=
  ((rgba.a : ℝ) / 255) * intensity

/-- The function `apply_overlay`: normalize the frame, blend
`(1 - alpha) * frame + alpha * overlay`, rescale by 255, clip and cast. -/
noncomputable def apply_overlay (F : Frame) (rgba : Rgba)
    (overlay_type : String) (intensity : ℝ) : Frame :=
  ⟨F.h, F.w, fun y x c =>
    u8val (((1 - alpha_scale rgba intensity) * (F.px y x c / 255) +
      alpha_scale rgba intensity *
        create_overlay_px F.h F.w rgba overlay_type y x c) * 255)⟩

/-! ### Dimension and range predicates -/

/-- Two frames have the same dimensions (the channel count is 3 by
construction of `Frame`). -/
def dimsEq (A B : Frame) : Prop := A.h = B.h ∧ A.w = B.w

/-- Every sample of the frame lies in [0, 255]. -/
def inRange (A : Frame) : Prop :=
  ∀ y x c, 0 ≤ A.px y x c ∧ A.px y x c ≤ 255

/-! ### Concrete inputs used by witnesses -/

/-- A 1x1 frame with all samples equal to 100. -/
noncomputable def F0 : Frame := ⟨1, 1, fun _ _ _ => 100⟩

/-- A trivial stand-in for the external Gaussian blur. -/
noncomputable def gauss0 : Frame → ℝ → ℕ → ℕ → Fin 3 → ℝ := fun _ _ _ _ _ => 0

/-- A trivial stand-in for the external Canny edge detector. -/
noncomputable def canny0 : Frame → ℕ → ℕ → ℝ := fun _ _ _ => 0

/-- A constant pixel accumulator. -/
noncomputable def acc0 : ℕ → ℕ → Fin 3 → ℝ := fun _ _ _ => 7

/-! ### Helper lemmas -/

theorem u8val_mem (x : ℝ) : 0 ≤ u8val x ∧ u8val x ≤ 255 := by
  unfold u8val
  constructor
  · exact_mod_cast Int.floor_nonneg.mpr (le_max_left 0 (min x 255))
  · calc ((⌊max 0 (min x 255)⌋ : ℤ) : ℝ) ≤ max 0 (min x 255) := Int.floor_le _
      _ ≤ 255 := max_le (by norm_num) (min_le_right x 255)

theorem u8val_natCast (n : ℕ) (hn : n ≤ 255) : u8val (n : ℝ) = n := by
  unfold u8val
  rw [min_eq_left (by exact_mod_cast hn), max_eq_right (by positivity)]
  exact_mod_cast congrArg (Int.cast : ℤ → ℝ) (Int.floor_natCast n)

theorem pyInt_pos_iff (x : ℝ) : 0 < pyInt x ↔ 1 ≤ x := by
  unfold pyInt
  by_cases h : 0 ≤ x
  · rw [if_pos h, Int.lt_iff_add_one_le, zero_add, Int.le_floor]
    norm_num
  · rw [if_neg h]
    push_neg at h
    constructor
    · intro h1
      have h2 : 0 ≤ ⌊-x⌋ := Int.floor_nonneg.mpr (by linarith)
      omega
    · intro h1; linarith

/-! ### Claim theorems -/

/-- Claim C1: for every frame, every effect stage of the pipeline (color
shift, edge enhancement, glow, breath rhythm, photonic noise) and every
timestamp, the output has the same dimensions (and, by construction of
`Frame`, the same three channels) as the input, and every output sample lies
in [0, 255]. -/
theorem stages_preserve_dims_range (canny : Frame → ℕ → ℕ → ℝ)
    (gauss : Frame → ℝ → ℕ → ℕ → Fin 3 → ℝ) (rng : ℕ → ℕ × ℕ) (F : Frame)
    (t strength intensity period density : ℝ) :
    (dimsEq (color_shift F t) F ∧ inRange (color_shift F t)) ∧
    (dimsEq (edge_enhancement canny F strength) F ∧
      inRange (edge_enhancement canny F strength)) ∧
    (dimsEq (glow_filter gauss F intensity) F ∧
      inRange (glow_filter gauss F intensity)) ∧
    (dimsEq (breath_rhythm gauss F t period) F ∧
      inRange (breath_rhythm gauss F t period)) ∧
    (dimsEq (photonic_noise rng F t density) F ∧
      inRange (photonic_noise rng F t density)) :=
  ⟨⟨⟨rfl, rfl⟩, fun _ _ _ => u8val_mem _⟩,
   ⟨⟨rfl, rfl⟩, fun _ _ _ => u8val_mem _⟩,
   ⟨⟨rfl, rfl⟩, fun _ _ _ => u8val_mem _⟩,
   ⟨⟨rfl, rfl⟩, fun _ _ _ => u8val_mem _⟩,
   ⟨⟨rfl, rfl⟩, fun _ _ _ => u8val_mem _⟩⟩

/-- Claim C4: the eyelid mask produced with `closing = true` equals, at every
pixel, the mask produced with `closing = false`; the flag has no effect on
the mask formula. -/
theorem create_eye_mask_closing_irrelevant (h w : ℕ) (progress : ℝ)
    (y x : ℕ) :
    create_eye_mask h w progress true y x =
      create_eye_mask h w progress false y x := rfl

/-- Claim C9: with noise density 0 the full pipeline does not depend on the
random source, so two runs on the same frame and timestamp give identical
output (the random sampler is the only stage input that differs between
runs). -/
theorem process_frame_deterministic (canny : Frame → ℕ → ℕ → ℝ)
    (gauss : Frame → ℝ → ℕ → ℕ → Fin 3 → ℝ) (rng₁ rng₂ : ℕ → ℕ × ℕ)
    (F : Frame) (t : ℝ) :
    process_frame canny gauss rng₁ 0 F t =
      process_frame canny gauss rng₂ 0 F t := by
  simp [process_frame, photonic_noise, num_points, pyInt]

/-- Claim C2: `select_color` returns the first segment in specification
order whose half-open interval `[start_time, start_time + duration)`
contains the timestamp; with no containing segment it falls back to the
last segment of a non-empty timeline, and on an empty timeline it returns
`none` without failing.  On the demo timeline, `select(0.5)` is segment 0,
`select(1.5)` is segment 1, and `select(5.0)` is segment 1. -/
theorem select_color_spec :
    select_color demoTimeline (1 / 2) = some seg0 ∧
    select_color demoTimeline (3 / 2) = some seg1 ∧
    select_color demoTimeline 5 = some seg1 ∧
    (∀ t, select_color [] t = none) ∧
    (∀ pre c post t, (∀ cc ∈ pre, inSegment cc t = false) →
      inSegment c t = true → select_color (pre ++ c :: post) t = some c) ∧
    (∀ cs t, (∀ cc ∈ cs, inSegment cc t = false) →
      select_color cs t = cs.getLast?) := by
  refine ⟨?_, ?_, ?_, fun t => rfl, ?_, ?_⟩
  · norm_num [select_color, demoTimeline, seg0, seg1, inSegment, List.find?]
  · norm_num [select_color, demoTimeline, seg0, seg1, inSegment, List.find?]
  · norm_num [select_color, demoTimeline, seg0, seg1, inSegment, List.find?]
  · intro pre c post t hpre hc
    unfold select_color
    have hnone : pre.find? (fun cc => inSegment cc t) = none :=
      List.find?_eq_none.mpr (fun x hx => by simp [hpre x hx])
    rw [List.find?_append, hnone, Option.none_or,
      @List.find?_cons_of_pos _ (fun cc => inSegment cc t) c post hc]
  · intro cs t h
    unfold select_color
    rw [List.find?_eq_none.mpr (fun x hx => by simp [h x hx])]

/-- Witness for `select_color_spec`: its general clauses applied to the
singleton timeline `[seg0]` at timestamps 0.5 (contained) and 5 (fallback
to the last segment). -/
theorem select_color_spec_witness :
    select_color ([] ++ seg0 :: []) (1 / 2) = some seg0 ∧
    select_color [seg0] 5 = [seg0].getLast? := by
  constructor
  · exact select_color_spec.2.2.2.2.1 [] seg0 [] (1 / 2)
      (fun cc hcc => absurd hcc (List.not_mem_nil cc))
      (by norm_num [inSegment, seg0])
  · exact select_color_spec.2.2.2.2.2 [seg0] 5
      (fun cc hcc => by
        rw [List.mem_singleton] at hcc
        subst hcc
        norm_num [inSegment, seg0])

/-- Claim C3: the two-phase zoom scale curve satisfies `scale(0) = 1`,
`scale(D/2) = zoom_in`, `scale(D) = zoom_out`, and is continuous at the
midpoint `D/2`. -/
theorem zoomScale_spec (zi zo D : ℚ) (hD : 0 < D) :
    zoomScale zi zo D 0 = 1 ∧ zoomScale zi zo D (D / 2) = zi ∧
    zoomScale zi zo D D = zo ∧
    ContinuousAt (zoomScale zi zo D) (D / 2) := by
  have hD2 : (D / 2 : ℚ) ≠ 0 := by positivity
  refine ⟨?_, ?_, ?_, ?_⟩
  · unfold zoomScale
    rw [if_pos (show (0 : ℚ) < D / 2 by positivity)]
    norm_num
  · unfold zoomScale
    rw [if_neg (lt_irrefl (D / 2))]
    norm_num
  · unfold zoomScale
    rw [if_neg (not_lt.mpr (le_of_lt (half_lt_self hD)))]
    rw [sub_half, div_self hD2]
    ring
  · have hcont : Continuous (zoomScale zi zo D) := by
      have hdiv : Continuous fun t : ℚ => t / (D / 2) :=
        continuous_id.div_const _
      have hdiv2 : Continuous fun t : ℚ => (t - D / 2) / (D / 2) :=
        (continuous_id.sub continuous_const).div_const _
      unfold zoomScale
      apply Continuous.if
      · intro a ha
        have hfr : frontier {x : ℚ | x < D / 2} = {D / 2} := frontier_Iio
        rw [hfr, Set.mem_singleton_iff] at ha
        subst ha
        rw [div_self hD2, sub_self, zero_div]
        ring
      · exact continuous_const.add (continuous_const.mul
          ((hdiv.mul hdiv).mul
            (continuous_const.sub (continuous_const.mul hdiv))))
      · exact continuous_const.sub (continuous_const.mul
          ((hdiv2.mul hdiv2).mul
            (continuous_const.sub (continuous_const.mul hdiv2))))
    exact hcont.continuousAt

/-- Witness for `zoomScale_spec` at `zoom_in = 13/10`, `zoom_out = 1`,
`duration = 2`. -/
theorem zoomScale_spec_witness :
    (0 : ℚ) < 2 ∧
    (zoomScale (13 / 10) 1 2 0 = 1 ∧ zoomScale (13 / 10) 1 2 (2 / 2) = 13 / 10 ∧
     zoomScale (13 / 10) 1 2 2 = 1 ∧
     ContinuousAt (zoomScale (13 / 10) 1 2) (2 / 2)) :=
  ⟨by norm_num, zoomScale_spec (13 / 10) 1 2 (by norm_num)⟩

theorem hexSearch_append_isSome (mid post : List Char) (h8 : mid.length = 8)
    (hall : mid.all isHexDigit = true) :
    ∀ pre, (hexSearch (pre ++ (mid ++ post))).isSome = true := by
  intro pre
  induction pre with
  | nil =>
    cases mid with
    | nil => simp at h8
    | cons c cs =>
      have hchex : isHexDigit c = true := by
        simpa using List.all_eq_true.mp hall c (by simp)
      have hne : ¬(((c :: (cs ++ post)).head? : Option Char) = some '#') := by
        rw [List.head?_cons, Option.some.injEq]
        intro hcontra
        rw [hcontra] at hchex
        exact absurd hchex (by decide)
      have htake : (c :: (cs ++ post)).take 8 = c :: cs := by
        rw [show c :: (cs ++ post) = (c :: cs) ++ post from rfl,
          List.take_append_of_le_length (le_of_eq h8.symm)]
        exact List.take_of_length_le (le_of_eq h8)
      have hlen : ((c :: (cs ++ post)).take 8).length = 8 := by
        rw [htake]; exact h8
      have hmat : hexMatchAt (c :: (cs ++ post)) = some (c :: cs) := by
        unfold hexMatchAt
        rw [if_neg hne, if_pos ⟨hlen, by rw [htake]; exact hall⟩, htake]
      simp only [List.nil_append, List.cons_append]
      simp [hexSearch, hmat]
  | cons p ps ih =>
    rw [List.cons_append]
    cases hm : hexMatchAt (p :: (ps ++ (mid ++ post))) with
    | some g => simp [hexSearch, hm]
    | none => simp [hexSearch, hm, ih]

theorem hex_to_rgba_isOk (s : String)
    (h : (hexSearch s.data).isSome = true) : (hex_to_rgba s).isOk = true := by
  unfold hex_to_rgba
  cases hfind : hexSearch s.data with
  | none => rw [hfind] at h; simp at h
  | some v => simp [hfind, Except.isOk, Except.toBool]

/-- Claim C6: the hex parser decodes an optional leading `#` followed by
exactly eight hex digits, case-insensitively: both `"7d5bffaa"` and
`"#7d5bffaa"` (and the uppercase form) give RGBA (0x7d, 0x5b, 0xff, 0xaa),
and the malformed `"zzzzzzzz"` raises the invalid-color error.  The general
clause covers every string consisting of `#` plus eight hex digits, or
eight hex digits alone. -/
theorem hex_to_rgba_spec :
    hex_to_rgba "7d5bffaa" = Except.ok (125, 91, 255, 170) ∧
    hex_to_rgba "#7d5bffaa" = Except.ok (125, 91, 255, 170) ∧
    hex_to_rgba "#7D5BFFAA" = Except.ok (125, 91, 255, 170) ∧
    hex_to_rgba "zzzzzzzz" = Except.error "zzzzzzzz" ∧
    (∀ d1 d2 d3 d4 d5 d6 d7 d8 : Char,
      ([d1, d2, d3, d4, d5, d6, d7, d8].all isHexDigit) = true →
      hex_to_rgba ⟨'#' :: [d1, d2, d3, d4, d5, d6, d7, d8]⟩ =
        Except.ok (byteVal d1 d2, byteVal d3 d4, byteVal d5 d6,
          byteVal d7 d8) ∧
      hex_to_rgba ⟨[d1, d2, d3, d4, d5, d6, d7, d8]⟩ =
        Except.ok (byteVal d1 d2, byteVal d3 d4, byteVal d5 d6,
          byteVal d7 d8)) := by
  refine ⟨rfl, rfl, rfl, rfl, ?_⟩
  intro d1 d2 d3 d4 d5 d6 d7 d8 hall
  have h1 : isHexDigit d1 = true := by
    simpa using List.all_eq_true.mp hall d1 (by simp)
  have hne : d1 ≠ '#' := by
    intro hcontra
    rw [hcontra] at h1
    exact absurd h1 (by decide)
  constructor
  · simp [hex_to_rgba, hexSearch, hexMatchAt, hall]
  · simp [hex_to_rgba, hexSearch, hexMatchAt, hall, hne]

/-- Witness for `hex_to_rgba_spec`: the general clause applied to the
digits 0123abCD, with and without the leading `#`. -/
theorem hex_to_rgba_spec_witness :
    hex_to_rgba ⟨'#' :: ['0', '1', '2', '3', 'a', 'b', 'C', 'D']⟩ =
      Except.ok (byteVal '0' '1', byteVal '2' '3', byteVal 'a' 'b',
        byteVal 'C' 'D') ∧
    hex_to_rgba ⟨['0', '1', '2', '3', 'a', 'b', 'C', 'D']⟩ =
      Except.ok (byteVal '0' '1', byteVal '2' '3', byteVal 'a' 'b',
        byteVal 'C' 'D') :=
  hex_to_rgba_spec.2.2.2.2 '0' '1' '2' '3' 'a' 'b' 'C' 'D' (by decide)

/-- Claim C10: because the parser uses a regex search rather than a full
match, any string containing eight consecutive hex digits anywhere parses
successfully, and the captured group is the first (leftmost) such run:
garbage around `7d5bffaa`, or sixteen hex digits, still decode to
(0x7d, 0x5b, 0xff, 0xaa). -/
theorem hex_to_rgba_search :
    (∀ pre mid post : List Char, mid.length = 8 →
      mid.all isHexDigit = true →
      (hex_to_rgba ⟨pre ++ mid ++ post⟩).isOk = true) ∧
    hex_to_rgba "xx7d5bffaazz" = Except.ok (125, 91, 255, 170) ∧
    hex_to_rgba "7d5bffaa11223344" = Except.ok (125, 91, 255, 170) := by
  refine ⟨?_, rfl, rfl⟩
  intro pre mid post h8 hall
  apply hex_to_rgba_isOk
  show (hexSearch (pre ++ mid ++ post)).isSome = true
  rw [List.append_assoc]
  exact hexSearch_append_isSome mid post h8 hall pre

/-- Witness for `hex_to_rgba_search`: eight hex digits wrapped in
non-hex characters still parse. -/
theorem hex_to_rgba_search_witness :
    (hex_to_rgba ⟨['w'] ++ ['0', '1', '2', '3', '4', '5', '6', '7'] ++
      ['w']⟩).isOk = true :=
  hex_to_rgba_search.1 ['w'] ['0', '1', '2', '3', '4', '5', '6', '7'] ['w']
    (by decide) (by decide)

/-- Claim C5: overlay blending computes
`output = frame * (1 - alpha) + overlay * alpha` with
`alpha = (color.alpha / 255) * intensity` (first clause, with the overlay
rescaled to the 0-255 range); for `intensity = 0` the output equals the
input frame exactly in this idealized model; for `intensity = 1`,
`alpha = 255` and the tint shape, the output equals the flat overlay color
at every pixel. -/
theorem apply_overlay_spec :
    (∀ F rgba ty i y x c, (apply_overlay F rgba ty i).px y x c =
      u8val ((1 - alpha_scale rgba i) * F.px y x c +
        alpha_scale rgba i *
          (255 * create_overlay_px F.h F.w rgba ty y x c))) ∧
    (∀ F rgba ty y x c (n : ℕ), n ≤ 255 → F.px y x c = (n : ℝ) →
      (apply_overlay F rgba ty 0).px y x c = F.px y x c) ∧
    (∀ F rgba y x c, rgba.a = 255 → rgbChannel rgba c ≤ 255 →
      (apply_overlay F rgba "tint" 1).px y x c =
        (rgbChannel rgba c : ℝ)) := by
  refine ⟨?_, ?_, ?_⟩
  · intro F rgba ty i y x c
    show u8val (((1 - alpha_scale rgba i) * (F.px y x c / 255) +
      alpha_scale rgba i * create_overlay_px F.h F.w rgba ty y x c) *
        255) = _
    exact congrArg u8val (by ring)
  · intro F rgba ty y x c n hn hv
    show u8val (((1 - alpha_scale rgba 0) * (F.px y x c / 255) +
      alpha_scale rgba 0 * create_overlay_px F.h F.w rgba ty y x c) *
        255) = _
    have hα : alpha_scale rgba 0 = 0 := by simp [alpha_scale]
    rw [hα, hv]
    rw [show ((1 - 0) * ((n : ℝ) / 255) + 0 *
      create_overlay_px F.h F.w rgba ty y x c) * 255 = (n : ℝ) by
        field_simp]
    exact u8val_natCast n hn
  · intro F rgba y x c ha hc
    show u8val (((1 - alpha_scale rgba 1) * (F.px y x c / 255) +
      alpha_scale rgba 1 *
        create_overlay_px F.h F.w rgba "tint" y x c) * 255) = _
    have hα : alpha_scale rgba 1 = 1 := by simp [alpha_scale, ha]
    have hov : create_overlay_px F.h F.w rgba "tint" y x c =
        (rgbChannel rgba c : ℝ) / 255 := by
      simp [create_overlay_px]
    rw [hα, hov]
    rw [show ((1 - 1) * (F.px y x c / 255) + 1 *
      ((rgbChannel rgba c : ℝ) / 255)) * 255 = (rgbChannel rgba c : ℝ) by
        field_simp]
    exact u8val_natCast (rgbChannel rgba c) hc

/-- Witness for `apply_overlay_spec` on a 1x1 frame of value 100: zero
intensity leaves the frame unchanged, and a full-alpha, full-intensity tint
replaces it by the overlay color. -/
theorem apply_overlay_spec_witness :
    (apply_overlay F0 ⟨10, 20, 30, 40⟩ "tint" 0).px 0 0 0 = F0.px 0 0 0 ∧
    (apply_overlay F0 ⟨10, 20, 30, 255⟩ "tint" 1).px 0 0 0 =
      (rgbChannel ⟨10, 20, 30, 255⟩ 0 : ℝ) :=
  ⟨apply_overlay_spec.2.1 F0 ⟨10, 20, 30, 40⟩ "tint" 0 0 0 100
      (by norm_num) (by norm_num [F0]),
   apply_overlay_spec.2.2 F0 ⟨10, 20, 30, 255⟩ 0 0 0 rfl
      (by norm_num [rgbChannel])⟩

theorem breathEase_threeHalves : breathEase (3 / 2) 6 = 11 / 10 := by
  unfold breathEase
  rw [show (2 * Real.pi * (3 / 2) / 6 + Real.pi / 2) / 2 = Real.pi / 2 by
    ring, Real.sin_pi_div_two]
  norm_num

theorem breathEase_negNineHalves : breathEase (-(9 / 2)) 6 = -(1 / 10) := by
  unfold breathEase
  rw [show (2 * Real.pi * (-(9 / 2)) / 6 + Real.pi / 2) / 2 =
    -(Real.pi / 2) by ring, Real.sin_neg, Real.sin_pi_div_two]
  norm_num

/-- Counterexample to claim C7: at `t = 1.5` seconds with the default 6
second period, the eased breath value is exactly 1.1, far outside the
range [0.2, 0.8] asserted by the claim. -/
theorem breath_range_counterexample :
    breathEase (3 / 2) 6 = 11 / 10 ∧
    ¬(1 / 5 ≤ breathEase (3 / 2) 6 ∧ breathEase (3 / 2) 6 ≤ 4 / 5) := by
  refine ⟨breathEase_threeHalves, ?_⟩
  rw [breathEase_threeHalves]
  norm_num

/-- Claim C7 as amended: the breath stage computes
`phase = 2 * pi * t / period` and the eased value
`sin((phase + pi/2) / 2) * 0.6 + 0.5`, which lies in [-0.1, 1.1] (not
within [0.2, 0.8]; it attains 1.1); the blurred frame is blended at weight
`breath * 0.3` exactly when the truncated blur amount `int(breath * 2)` is
positive, i.e. when `breath * 2 >= 1`, and brightness is always scaled by
`1 + breath * 0.1`. -/
theorem breath_rhythm_amended (gauss : Frame → ℝ → ℕ → ℕ → Fin 3 → ℝ)
    (F : Frame) (t period : ℝ) (y x : ℕ) (c : Fin 3) :
    (-(1 / 10) ≤ breathEase t period ∧ breathEase t period ≤ 11 / 10) ∧
    (0 < pyInt (breathEase t period * 2) ↔
      1 ≤ breathEase t period * 2) ∧
    (1 ≤ breathEase t period * 2 →
      (breath_rhythm gauss F t period).px y x c =
        u8val ((F.px y x c * (1 - breathEase t period * 0.3) +
          gauss F ((pyInt (breathEase t period * 2) : ℤ) : ℝ) y x c *
            (breathEase t period * 0.3)) *
          (1 + breathEase t period * 0.1))) ∧
    (breathEase t period * 2 < 1 →
      (breath_rhythm gauss F t period).px y x c =
        u8val (F.px y x c * (1 + breathEase t period * 0.1))) := by
  refine ⟨?_, pyInt_pos_iff _, ?_, ?_⟩
  · unfold breathEase
    have hs1 := Real.neg_one_le_sin
      ((2 * Real.pi * t / period + Real.pi / 2) / 2)
    have hs2 := Real.sin_le_one
      ((2 * Real.pi * t / period + Real.pi / 2) / 2)
    constructor <;> nlinarith
  · intro h1
    have h2 : 0 < pyInt (breathEase t period * 2) := (pyInt_pos_iff _).mpr h1
    simp only [breath_rhythm, if_pos h2]
  · intro h1
    have h2 : ¬(0 < pyInt (breathEase t period * 2)) := by
      rw [pyInt_pos_iff]
      exact not_le.mpr h1
    simp only [breath_rhythm, if_neg h2]

/-- Witness for `breath_rhythm_amended`: the bounds at `t = 0`, the
blur-blend branch at `t = 1.5` (where the breath value is 1.1, so
`int(breath * 2) = 2 > 0`), and the no-blur branch at `t = -4.5` (where
the breath value is -0.1). -/
theorem breath_rhythm_amended_witness :
    (-(1 / 10) ≤ breathEase 0 6 ∧ breathEase 0 6 ≤ 11 / 10) ∧
    (breath_rhythm gauss0 F0 (3 / 2) 6).px 0 0 0 =
      u8val ((F0.px 0 0 0 * (1 - breathEase (3 / 2) 6 * 0.3) +
        gauss0 F0 ((pyInt (breathEase (3 / 2) 6 * 2) : ℤ) : ℝ) 0 0 0 *
          (breathEase (3 / 2) 6 * 0.3)) *
        (1 + breathEase (3 / 2) 6 * 0.1)) ∧
    (breath_rhythm gauss0 F0 (-(9 / 2)) 6).px 0 0 0 =
      u8val (F0.px 0 0 0 * (1 + breathEase (-(9 / 2)) 6 * 0.1)) := by
  refine ⟨(breath_rhythm_amended gauss0 F0 0 6 0 0 0).1,
    (breath_rhythm_amended gauss0 F0 (3 / 2) 6 0 0 0).2.2.1 ?_,
    (breath_rhythm_amended gauss0 F0 (-(9 / 2)) 6 0 0 0).2.2.2 ?_⟩
  · rw [breathEase_threeHalves]; norm_num
  · rw [breathEase_negNineHalves]; norm_num

/-- Counterexample to claim C8: on a 10 x 10 frame with the default
density 0.008, the code computes `int(10 * 10 * 0.008) = int(0.8) = 0`
noise points, whereas the claimed count `ceil(h * w * density)` is 1. -/
theorem num_points_ceil_counterexample :
    num_points 10 10 (8 / 1000) = 0 ∧
    ⌈((10 : ℕ) : ℝ) * ((10 : ℕ) : ℝ) * (8 / 1000)⌉ = 1 := by
  constructor
  · unfold num_points pyInt
    rw [show ((10 : ℕ) : ℝ) * ((10 : ℕ) : ℝ) * (8 / 1000) = 4 / 5 by
      norm_num]
    rw [if_pos (by norm_num)]
    rw [show ⌊(4 / 5 : ℝ)⌋ = 0 from
      Int.floor_eq_zero_iff.mpr ⟨by norm_num, by norm_num⟩]
    rfl
  · rw [show ((10 : ℕ) : ℝ) * ((10 : ℕ) : ℝ) * (8 / 1000) = 4 / 5 by
      norm_num]
    exact Int.ceil_eq_iff.mpr ⟨by norm_num, by norm_num⟩

/-- Claim C8 as amended: the noise stage scatters exactly
`int(h * w * density)` points (truncation toward zero, which is the floor
for non-negative density, not the ceiling); each point is perturbed by the
truncated offsets `int(5 * sin(2t + y * 0.01))`, `int(5 * cos(2t + x * 0.01))`
and wrapped modulo the frame size, so the target lies inside the frame;
the target pixel is additively brightened by `azure * 0.3` capped at 255,
and all other pixels are untouched by that point. -/
theorem photonic_noise_amended (h w : ℕ) (density t : ℝ) (xy : ℕ × ℕ)
    (acc : ℕ → ℕ → Fin 3 → ℝ) (c : Fin 3) :
    (0 ≤ density →
      (num_points h w density : ℤ) = ⌊(h : ℝ) * (w : ℝ) * density⌋) ∧
    (0 < w → 0 < h →
      (noiseTarget h w t xy).1 < w ∧ (noiseTarget h w t xy).2 < h) ∧
    (0 < w → 0 < h →
      applyPoint h w t xy acc (noiseTarget h w t xy).2
          (noiseTarget h w t xy).1 c =
        min (acc (noiseTarget h w t xy).2 (noiseTarget h w t xy).1 c +
          azure c * 0.3) 255) ∧
    (∀ py px, ¬(py = (noiseTarget h w t xy).2 ∧
        px = (noiseTarget h w t xy).1) →
      applyPoint h w t xy acc py px c = acc py px c) := by
  have hbound : 0 < w → 0 < h →
      (noiseTarget h w t xy).1 < w ∧ (noiseTarget h w t xy).2 < h := by
    intro hw hh
    unfold noiseTarget
    have hw0 : ((w : ℤ)) ≠ 0 := by exact_mod_cast hw.ne'
    have hh0 : ((h : ℤ)) ≠ 0 := by exact_mod_cast hh.ne'
    have hw1 : (0 : ℤ) < (w : ℤ) := by exact_mod_cast hw
    have hh1 : (0 : ℤ) < (h : ℤ) := by exact_mod_cast hh
    have e1 : 0 ≤ ((xy.1 : ℤ) +
        pyInt (5 * Real.sin (t * 2 + (xy.2 : ℝ) * 0.01))).emod (w : ℤ) :=
      Int.emod_nonneg _ hw0
    have e2 : ((xy.1 : ℤ) +
        pyInt (5 * Real.sin (t * 2 + (xy.2 : ℝ) * 0.01))).emod (w : ℤ) <
          (w : ℤ) :=
      Int.emod_lt_of_pos _ hw1
    have e3 : 0 ≤ ((xy.2 : ℤ) +
        pyInt (5 * Real.cos (t * 2 + (xy.1 : ℝ) * 0.01))).emod (h : ℤ) :=
      Int.emod_nonneg _ hh0
    have e4 : ((xy.2 : ℤ) +
        pyInt (5 * Real.cos (t * 2 + (xy.1 : ℝ) * 0.01))).emod (h : ℤ) <
          (h : ℤ) :=
      Int.emod_lt_of_pos _ hh1
    constructor <;> simp only [] <;> omega
  refine ⟨?_, hbound, ?_, ?_⟩
  · intro hd
    unfold num_points pyInt
    have h0 : 0 ≤ (h : ℝ) * (w : ℝ) * density := by positivity
    rw [if_pos h0]
    exact Int.toNat_of_nonneg (Int.floor_nonneg.mpr h0)
  · intro hw hh
    unfold applyPoint
    rw [if_pos (hbound hw hh)]
    simp
  · intro py px hne
    unfold applyPoint
    by_cases hg : (noiseTarget h w t xy).1 < w ∧ (noiseTarget h w t xy).2 < h
    · rw [if_pos hg, if_neg hne]
    · rw [if_neg hg]

/-- Witness for `photonic_noise_amended` on a 10 x 10 frame at the default
density 0.008 with the sampled point (3, 4) at `t = 0`. -/
theorem photonic_noise_amended_witness :
    ((num_points 10 10 (8 / 1000) : ℤ) =
      ⌊((10 : ℕ) : ℝ) * ((10 : ℕ) : ℝ) * (8 / 1000)⌋) ∧
    ((noiseTarget 10 10 0 (3, 4)).1 < 10 ∧
      (noiseTarget 10 10 0 (3, 4)).2 < 10) ∧
    applyPoint 10 10 0 (3, 4) acc0 (noiseTarget 10 10 0 (3, 4)).2
        (noiseTarget 10 10 0 (3, 4)).1 0 =
      min (acc0 (noiseTarget 10 10 0 (3, 4)).2
        (noiseTarget 10 10 0 (3, 4)).1 0 + azure 0 * 0.3) 255 :=
  ⟨(photonic_noise_amended 10 10 (8 / 1000) 0 (3, 4) acc0 0).1
      (by norm_num),
   (photonic_noise_amended 10 10 (8 / 1000) 0 (3, 4) acc0 0).2.1
      (by norm_num) (by norm_num),
   (photonic_noise_amended 10 10 (8 / 1000) 0 (3, 4) acc0 0).2.2.1
      (by norm_num) (by norm_num)⟩

end Neuro

